import Mathlib

/-!
Verification development for the my-indexer python client
(`my_indexer/document.py`, `analysis.py`, `index.py`, `storage.py`,
`client.py`, `exceptions.py`).

Shallow embedding conventions: python dicts are insertion-ordered
association lists, in-place mutation is explicit state passing, raised
exceptions are `Except` errors, and the file system and the HTTP
transport are explicit parameters threaded through the operations.
-/

/-- Association-list lookup; the embedding of python dict indexing
`d[k]` and of the membership test `k in d` (keys are unique in every
dict this development builds, so first-match lookup is dict lookup). -/
def assocGet {α β : Type} [DecidableEq α] (k : α) : List (α × β) → Option β
  | [] => none
  | (a, b) :: rest => if a = k then some b else assocGet k rest

/-- Embedding of python dict assignment `d[k] = v`: overwrite the value in
place when the key is present (keeping its position), append otherwise
(python dicts preserve insertion order). -/
def dictSet {α β : Type} [DecidableEq α] (k : α) (v : β) (d : List (α × β)) : List (α × β) :=
  if (assocGet k d).isSome then d.map (fun kv => if kv.1 = k then (k, v) else kv)
  else d ++ [(k, v)]

/-- Python exception values raised by the embedded code: one constructor
per exception class the source can raise.  `exceptions.py` defines
IndexerError and its subclasses DocumentNotFoundError,
IndexerConnectionError and InvalidQueryError; the local store and the
storage backend raise the builtins KeyError, ValueError and OSError;
pydantic model construction raises its ValidationError. -/
inductive PyExc where
  | KeyError (msg : String)
  | ValueError (msg : String)
  | OSError (path : String)
  | IndexerError (msg : String)
  | DocumentNotFoundError (msg : String)
  | IndexerConnectionError (msg : String)
  | InvalidQueryError (msg : String)
  | ValidationError (msg : String)
deriving DecidableEq

/-- Embedding of python `str(e)` on an exception value: the message it
was constructed with (for OSError, the offending path). -/
def excStr : PyExc → String
  | .KeyError m => m
  | .ValueError m => m
  | .OSError p => p
  | .IndexerError m => m
  | .DocumentNotFoundError m => m
  | .IndexerConnectionError m => m
  | .InvalidQueryError m => m
  | .ValidationError m => m

/-- Whether an exception is an instance of IndexerError, i.e. of the base
class of the taxonomy in `exceptions.py` (its subclasses included). -/
def isIndexerError : PyExc → Bool
  | .IndexerError _ => true
  | .DocumentNotFoundError _ => true
  | .IndexerConnectionError _ => true
  | .InvalidQueryError _ => true
  | _ => false

/-- Whether the first list is an initial segment of the second. -/
def listIsPfxOf : List Char → List Char → Bool
  | [], _ => true
  | _ :: _, [] => false
  | a :: as, b :: bs => a = b && listIsPfxOf as bs

/-- Whether `pat` occurs as a contiguous sublist of the second list; the
embedding of the python substring test `pat in s`. -/
def listContainsSub (pat : List Char) : List Char → Bool
  | [] => listIsPfxOf pat []
  | c :: cs => listIsPfxOf pat (c :: cs) || listContainsSub pat cs

/-- Substring test on strings: embedding of python `pat in s`. -/
def strContains (s pat : String) : Bool :=
  listContainsSub pat.data s.data

/-- ASCII lower-casing of one character, the fragment of python
`str.lower()` exercised by the ASCII error messages of this client. -/
def lowerChar (c : Char) : Char :=
  if 'A' ≤ c ∧ c ≤ 'Z' then Char.ofNat (c.toNat + 32) else c

/-- Embedding of python `s.lower()` (ASCII fragment). -/
def strLower (s : String) : String :=
  String.mk (s.data.map lowerChar)

/-- Embedding of python `s.endswith(suffix)`. -/
def strEndsWith (s sfx : String) : Bool :=
  listIsPfxOf sfx.data.reverse s.data.reverse

/-- Embedding of python `s.rstrip(c)` for one strip character. -/
def rstripChar (s : String) (c : Char) : String :=
  String.mk (s.data.reverse.dropWhile (fun x => x = c)).reverse

/-- Embedding of python `path.split(sep)` for the posix separator:
splits at every slash, keeping empty components. -/
def splitOnSlash : List Char → List (List Char)
  | [] => [[]]
  | c :: rest =>
    match splitOnSlash rest with
    | [] => [[]]
    | g :: gs => if c = '/' then [] :: g :: gs else (c :: g) :: gs

/-- Embedding of python `sep.join(comps)` for the posix separator. -/
def joinSlash : List (List Char) → List Char
  | [] => []
  | [c] => c
  | c :: c2 :: rest => c ++ '/' :: joinSlash (c2 :: rest)

/-- The component-normalisation loop of CPython `posixpath.normpath`:
drops empty and dot components, and resolves a dotdot component by
popping the previous component unless the retained components are a run
of dotdots (or the path is relative and nothing is retained), in which
case the dotdot is kept (or, at the root of an absolute path, dropped).
`acc` holds the retained components newest first. -/
def normComps (isAbsFlag : Bool) (acc : List (List Char)) : List (List Char) → List (List Char)
  | [] => acc.reverse
  | c :: rest =>
    if c = [] ∨ c = ['.'] then normComps isAbsFlag acc rest
    else if c ≠ ['.', '.'] ∨ (isAbsFlag = false ∧ acc = []) ∨ acc.head? = some ['.', '.'] then
      normComps isAbsFlag (c :: acc) rest
    else
      match acc with
      | [] => normComps isAbsFlag [] rest
      | _ :: acc2 => normComps isAbsFlag acc2 rest

/-- Embedding of CPython `posixpath.normpath`: collapses slashes and dot
components and resolves dotdot components textually, preserving the
posix special case of exactly two leading slashes. -/
def normpath (p : String) : String :=
  if p = "" then "."
  else
    let cs := p.data
    let slashes : Nat :=
      if listIsPfxOf ['/', '/'] cs ∧ ¬ listIsPfxOf ['/', '/', '/'] cs then 2
      else if listIsPfxOf ['/'] cs then 1
      else 0
    let res := normComps (slashes != 0) [] (splitOnSlash cs)
    let out := List.replicate slashes '/' ++ joinSlash res
    if out.isEmpty then "." else String.mk out

/-- Embedding of python `posixpath.isabs`. -/
def isAbs (p : String) : Bool :=
  listIsPfxOf ['/'] p.data

/-- Embedding of python `posixpath.join` for two arguments. -/
def joinPath (a b : String) : String :=
  if isAbs b then b
  else if a = "" ∨ listIsPfxOf ['/'] a.data.reverse then a ++ b
  else a ++ "/" ++ b

/-- Embedding of python `os.path.abspath` relative to an explicit working
directory `cwd`: join onto the working directory when relative, then
normalise.  Note that the result is always already normalised. -/
def abspath (cwd p : String) : String :=
  if isAbs p then normpath p else normpath (joinPath cwd p)

/-- Document record from `document.py`: a mapping of string field names
to string values, and an optional integer id (absent until an index
assigns one). -/
structure Document where
  fields : List (String × String)
  id : Option Nat
deriving DecidableEq

/-- StandardAnalyzer from `analysis.py`: stateless placeholder. -/
inductive StandardAnalyzer where
  | mk
deriving DecidableEq

/-- Embedding of `StandardAnalyzer.analyze`, which always returns the
empty token list (the real analyzer lives in the remote Go service). -/
def StandardAnalyzer.analyze (_a : StandardAnalyzer) (_text : String) : List String := []

/-- Contents of a file as far as the storage backend can observe them:
either a pickle of an id-to-Document dict (pickling a Document keeps its
fields and id via its getstate/setstate hooks), or bytes on which
unpickling fails (corruption, truncation, format mismatch). -/
inductive Blob where
  | pickled (data : List (Nat × Document))
  | corrupt
deriving DecidableEq

/-- The file system visible to the storage backend: file contents keyed
by the raw path string used to open them (a fixed working directory is
assumed throughout), plus the set of paths on which opening for write
fails with an OSError (e.g. permission denied, read-only file system). -/
structure FS where
  files : List (String × Blob)
  readonly : List String
deriving DecidableEq

/-- Embedding of `IndexStorage._validate_path` from `storage.py`: require
the `.gob` extension, then reject the path if normalising its absolute
form changes it (the intended directory-traversal guard), then create
the containing directory (a no-op on this abstract file system). -/
def validate_path (cwd path : String) : Except PyExc Unit :=
  if ¬ strEndsWith path ".gob" then
    Except.error (PyExc.ValueError "Index path must end with .gob")
  else
    let abs_path := abspath cwd path
    if ¬ (normpath abs_path = abs_path) then
      Except.error (PyExc.ValueError "Invalid path: possible directory traversal")
    else
      Except.ok ()

/-- IndexStorage state from `storage.py`: the validated path and the dict
loaded from it at construction time (`self.data`). -/
structure IndexStorage where
  index_path : String
  data : List (Nat × Document)
deriving DecidableEq

/-- Embedding of `IndexStorage._load_data`: an absent file yields the
empty dict; a pickled dict is returned; a file whose unpickling fails is
swallowed and yields the empty dict. -/
def IndexStorage._load_data (index_path : String) (fs : FS) : List (Nat × Document) :=
  match assocGet index_path fs.files with
  | none => []
  | some (Blob.pickled d) => d
  | some Blob.corrupt => []

/-- Embedding of the `IndexStorage` constructor: store the path, validate
it (propagating the ValueError on failure), and load `self.data`. -/
def IndexStorage.init (cwd index_path : String) (fs : FS) : Except PyExc IndexStorage :=
  match validate_path cwd index_path with
  | Except.error e => Except.error e
  | Except.ok _ => Except.ok ⟨index_path, IndexStorage._load_data index_path fs⟩

/-- Embedding of `IndexStorage.load_data`: returns the dict loaded at
construction time. -/
def IndexStorage.load_data (s : IndexStorage) : List (Nat × Document) := s.data

/-- Embedding of `IndexStorage.save_data`: open the file for writing
(raising the OSError when the path cannot be written) and pickle the
full dict into it, replacing any previous contents. -/
def IndexStorage.save_data (s : IndexStorage) (data : List (Nat × Document)) (fs : FS) :
    Except PyExc FS :=
  if fs.readonly.contains s.index_path then Except.error (PyExc.OSError s.index_path)
  else Except.ok ⟨dictSet s.index_path (Blob.pickled data) fs.files, fs.readonly⟩

/-- State-passing form of `save_data`, making explicit that the method
body assigns nothing to `self`: it returns the storage unchanged
alongside the write outcome. -/
def IndexStorage.save_data_st (s : IndexStorage) (data : List (Nat × Document)) (fs : FS) :
    Except PyExc FS × IndexStorage :=
  (s.save_data data fs, s)

/-- Index state from `index.py`: the analyzer, the storage backend and
the in-memory id-to-Document dict `self._documents`. -/
structure Index where
  analyzer : StandardAnalyzer
  storage : IndexStorage
  _documents : List (Nat × Document)
deriving DecidableEq

/-- Embedding of the `Index` constructor: keep the analyzer and storage
and load the documents dict from the storage. -/
def Index.init (analyzer : StandardAnalyzer) (storage : IndexStorage) : Index :=
  ⟨analyzer, storage, storage.load_data⟩

/-- The id the next `add_document` call will assign, namely
`len(self._documents)` (the spec calls this counter nextId). -/
def Index.next_doc_id (idx : Index) : Nat :=
  idx._documents.length

/-- Embedding of `Index.add_document`: assign `doc_id = len(documents)`,
set the passed document's id field to it (in-place mutation, returned
here as the middle component), store the document under the id, and
return the id. -/
def Index.add_document (idx : Index) (doc : Document) : Nat × Document × Index :=
  let doc_id := idx._documents.length
  let doc2 : Document := { doc with id := some doc_id }
  (doc_id, doc2, { idx with _documents := dictSet doc_id doc2 idx._documents })

/-- Embedding of `Index.get_document`: KeyError when the id is absent
from the documents dict, otherwise the stored document. -/
def Index.get_document (idx : Index) (doc_id : Nat) : Except PyExc Document :=
  match assocGet doc_id idx._documents with
  | none => Except.error (PyExc.KeyError s!"Document {doc_id} not found")
  | some d => Except.ok d

/-- State-passing form of `get_document`, making explicit that the method
body assigns nothing: the index comes back unchanged. -/
def Index.get_document_st (idx : Index) (doc_id : Nat) : Except PyExc Document × Index :=
  (idx.get_document doc_id, idx)

/-- Embedding of `Index.get_all_documents`: the values of the documents
dict in insertion order. -/
def Index.get_all_documents (idx : Index) : List Document :=
  idx._documents.map Prod.snd

/-- Embedding of `Index.save`: pickle the in-memory documents dict
through the storage backend. -/
def Index.save (idx : Index) (fs : FS) : Except PyExc FS :=
  idx.storage.save_data idx._documents fs

/-- Sequential adds: run `add_document` over a list of documents,
collecting the (returned id, mutated passed document) pairs and the
final index state. -/
def addDocs : Index → List Document → List (Nat × Document) × Index
  | idx, [] => ([], idx)
  | idx, d :: ds =>
    let r := idx.add_document d
    let rest := addDocs r.2.2 ds
    ((r.1, r.2.1) :: rest.1, rest.2)

/-- The dict entries produced by adding the documents `ds` when the next
id to assign is `n`: document `i` of the list is stored under id `n + i`
with its id field set accordingly. -/
def entriesFrom (n : Nat) : List Document → List (Nat × Document)
  | [] => []
  | d :: ds => (n, { d with id := some n }) :: entriesFrom (n + 1) ds

/-- JSON values, as the client exchanges them with the transport; also
used as the type of the structured query dicts. -/
inductive Json where
  | null
  | bool (b : Bool)
  | num (q : ℚ)
  | str (s : String)
  | arr (elems : List Json)
  | obj (fields : List (String × Json))

/-- Embedding of `Index.search`: the degraded local fallback returns
every stored document id paired with the fixed score 1.0 (a rational
here, since no float arithmetic occurs), iterating the documents dict in
its insertion order; the query dict is never inspected. -/
def Index.search (idx : Index) (_query : List (String × Json)) : List (Nat × ℚ) :=
  idx._documents.map (fun kv => (kv.1, (1 : ℚ)))

/-- Embedding of pydantic `Document.model_dump` from `models.py`. -/
def Document.model_dump (d : Document) : Json :=
  Json.obj
    [("fields", Json.obj (d.fields.map (fun kv => (kv.1, Json.str kv.2)))),
     ("id", match d.id with | none => Json.null | some n => Json.num n)]

/-- One HTTP request as `requests.request` receives it. -/
structure HttpRequest where
  method : String
  url : String
  json : Option Json

/-- What the black-box transport delivers for a request: either a
transport-level connection failure (requests.ConnectionError carrying a
message), or a response with a status code, the message the HTTPError
raised by raise_for_status for it would carry, and the outcome of
parsing the body as JSON (error = the JSONDecodeError message). -/
inductive HttpOutcome where
  | connectionFailure (msg : String)
  | response (status : Nat) (errMsg : String) (body : Except String Json)

/-- The transport itself, a black-box function from request to outcome. -/
abbrev Transport := HttpRequest → HttpOutcome

/-- IndexerClient state from `client.py`: the base url. -/
structure IndexerClient where
  base_url : String

/-- Embedding of the `IndexerClient` constructor: strip trailing slashes
from the base url. -/
def IndexerClient.init (base_url : String) : IndexerClient :=
  ⟨rstripChar base_url '/'⟩

/-- Embedding of `IndexerClient._make_request`: issue the request; map a
connection failure to IndexerConnectionError; statuses 4xx and 5xx make
raise_for_status raise, mapped to DocumentNotFoundError for 404 and to
the generic IndexerError otherwise; any other status proceeds to
`response.json()`, whose decode failure falls into the generic
`except Exception` arm as an IndexerError.  The url is built by plain
concatenation, which agrees with `urljoin` for this client's stripped
base urls and path-absolute endpoints. -/
def IndexerClient.make_request (c : IndexerClient) (t : Transport) (method endpoint : String)
    (json : Option Json) : Except PyExc Json :=
  let url := c.base_url ++ endpoint
  match t { method := method, url := url, json := json } with
  | HttpOutcome.connectionFailure msg =>
    Except.error (PyExc.IndexerConnectionError ("Failed to connect to indexer: " ++ msg))
  | HttpOutcome.response status errMsg body =>
    if 400 ≤ status ∧ status < 600 then
      if status = 404 then
        Except.error (PyExc.DocumentNotFoundError ("Document not found: " ++ errMsg))
      else
        Except.error (PyExc.IndexerError ("Request failed: " ++ errMsg))
    else
      match body with
      | Except.ok j => Except.ok j
      | Except.error decodeMsg =>
        Except.error (PyExc.IndexerError ("Unexpected error: " ++ decodeMsg))

/-- Embedding of `IndexerClient.index_document`: dump the document model
and POST it to the document endpoint, returning the response JSON
unvalidated. -/
def IndexerClient.index_document (c : IndexerClient) (t : Transport) (document : Document) :
    Except PyExc Json :=
  c.make_request t "POST" "/_doc" (some document.model_dump)

/-- Shard counts of a search response (`models.py` SearchShards). -/
structure SearchShards where
  total : Int
  successful : Int
  failed : Int
deriving DecidableEq

/-- One search hit (`models.py` SearchHit). -/
structure SearchHit where
  _id : String
  _source : Document
  _score : ℚ
deriving DecidableEq

/-- A search response (`models.py` SearchResponse). -/
structure SearchResponse where
  took : Int
  timed_out : Bool
  _shards : SearchShards
  hits : List SearchHit
  total : Int
deriving DecidableEq

/-- Pydantic integer field validation: a JSON number with denominator 1. -/
def parseInt (j : Json) : Option Int :=
  match j with
  | Json.num q => if q.den = 1 then some q.num else none
  | _ => none

/-- Pydantic validation of a string-to-string mapping field. -/
def parseStrMap : List (String × Json) → Option (List (String × String))
  | [] => some []
  | (k, Json.str v) :: rest => (parseStrMap rest).map (fun r => (k, v) :: r)
  | _ :: _ => none

/-- Pydantic validation of `models.py` Document from JSON: the fields
mapping is required, the id is optional (absent or null meaning none). -/
def parseDocument (j : Json) : Option Document :=
  match j with
  | Json.obj fields =>
    match assocGet "fields" fields with
    | some (Json.obj fpairs) =>
      match parseStrMap fpairs with
      | some fd =>
        match assocGet "id" fields with
        | none => some ⟨fd, none⟩
        | some Json.null => some ⟨fd, none⟩
        | some (Json.num q) =>
          if q.den = 1 ∧ 0 ≤ q.num then some ⟨fd, some q.num.toNat⟩ else none
        | some _ => none
      | none => none
    | _ => none
  | _ => none

/-- Pydantic validation of SearchShards (every count defaults to 0). -/
def parseShards (j : Json) : Option SearchShards :=
  match j with
  | Json.obj fs => do
    let total ← match assocGet "total" fs with | none => some 0 | some v => parseInt v
    let successful ← match assocGet "successful" fs with | none => some 0 | some v => parseInt v
    let failed ← match assocGet "failed" fs with | none => some 0 | some v => parseInt v
    some ⟨total, successful, failed⟩
  | _ => none

/-- Pydantic validation of SearchHit (all three fields required). -/
def parseHit (j : Json) : Option SearchHit :=
  match j with
  | Json.obj fs => do
    let hid ← match assocGet "_id" fs with | some (Json.str s) => some s | _ => none
    let src ← match assocGet "_source" fs with | some v => parseDocument v | _ => none
    let score ← match assocGet "_score" fs with | some (Json.num q) => some q | _ => none
    some ⟨hid, src, score⟩
  | _ => none

/-- Pydantic validation of SearchResponse: took and the shards are
required; timed_out defaults to false, hits to the empty list, total
to 0. -/
def parseSearchResponse (j : Json) : Option SearchResponse :=
  match j with
  | Json.obj fs => do
    let took ← match assocGet "took" fs with | some v => parseInt v | none => none
    let timedOut ← match assocGet "timed_out" fs with
                   | none => some false
                   | some (Json.bool b) => some b
                   | some _ => none
    let shards ← match assocGet "_shards" fs with | some v => parseShards v | none => none
    let hits ← match assocGet "hits" fs with
               | none => some []
               | some (Json.arr xs) => xs.mapM parseHit
               | some _ => none
    let total ← match assocGet "total" fs with | none => some 0 | some v => parseInt v
    some ⟨took, timedOut, shards, hits, total⟩
  | _ => none

/-- Embedding of `IndexerClient.search`: POST the query to the search
endpoint and validate the response model (a pydantic ValidationError is
not an IndexerError, so it propagates untouched); any IndexerError whose
lower-cased message contains the substring invalid query is reclassified
as InvalidQueryError, every other IndexerError is re-raised unchanged. -/
def IndexerClient.search (c : IndexerClient) (t : Transport) (query : Json) :
    Except PyExc SearchResponse :=
  let attempt : Except PyExc SearchResponse :=
    match c.make_request t "POST" "/_search" (some query) with
    | Except.error e => Except.error e
    | Except.ok j =>
      match parseSearchResponse j with
      | some r => Except.ok r
      | none => Except.error (PyExc.ValidationError "validation error for SearchResponse")
  match attempt with
  | Except.error e =>
    if isIndexerError e && strContains (strLower (excStr e)) "invalid query" then
      Except.error (PyExc.InvalidQueryError ("Invalid query: " ++ excStr e))
    else
      Except.error e
  | Except.ok r => Except.ok r

/-- A first demonstration document, with field mapping title to A. -/
def demoDocA : Document := ⟨[("title", "A")], none⟩

/-- A second demonstration document, with field mapping title to B. -/
def demoDocB : Document := ⟨[("title", "B")], none⟩

/-- The two demonstration documents of the spec scenario, in add order. -/
def demoDocs : List Document := [demoDocA, demoDocB]

/-- A freshly constructed storage backend on the default path, holding
no prior data. -/
def demoStorage : IndexStorage := ⟨"index.gob", []⟩

/-- The store obtained by adding the two demonstration documents to a
fresh index. -/
def demoIndex : Index := (addDocs (Index.init StandardAnalyzer.mk demoStorage) demoDocs).2

/-- An empty, fully writable file system. -/
def demoFS : FS := ⟨[], []⟩

/-- A demonstration query dict. -/
def demoQueryDict : List (String × Json) := [("match", Json.obj [("title", Json.str "A")])]

/-- The file system after saving the two-document store onto the empty
file system. -/
def demoFS2 : FS := ⟨[("index.gob", Blob.pickled demoIndex._documents)], []⟩

/-- A file system holding corrupted bytes at the default index path. -/
def demoCorruptFS : FS := ⟨[("index.gob", Blob.corrupt)], []⟩

/-- A file system on which the default index path cannot be written. -/
def demoROFS : FS := ⟨[], ["index.gob"]⟩

/-- A client against the default local endpoint. -/
def demoClient : IndexerClient := IndexerClient.init "http://localhost:8080"

/-- A demonstration query payload. -/
def demoBadQuery : Json := Json.obj [("bad", Json.str "query")]

/-- A transport that delivers a 500 response whose body is not JSON. -/
def t500 : Transport := fun _ =>
  HttpOutcome.response 500
    "500 Server Error: Internal Server Error for url: http://localhost:8080/_doc"
    (Except.error "Expecting value: line 1 column 1 (char 0)")

/-- A transport that delivers a 300 response with an empty JSON object
body: a non-2xx status that raise_for_status does not treat as an
error. -/
def t300 : Transport := fun _ =>
  HttpOutcome.response 300 "Multiple Choices" (Except.ok (Json.obj []))

/-- A transport that delivers a 404 response whose message does not
contain the invalid-query marker. -/
def t404 : Transport := fun _ =>
  HttpOutcome.response 404
    "404 Client Error: Not Found for url: http://localhost:8080/_search"
    (Except.error "Expecting value: line 1 column 1 (char 0)")

/-- A transport that delivers a 400 response whose message carries the
invalid-query marker (case-insensitively). -/
def t400iq : Transport := fun _ =>
  HttpOutcome.response 400
    "400 Client Error: Invalid Query for url: http://localhost:8080/_search"
    (Except.error "Expecting value: line 1 column 1 (char 0)")

theorem assocGet_append_of_none {α β : Type} [DecidableEq α] (k : α) (l m : List (α × β))
    (h : assocGet k l = none) : assocGet k (l ++ m) = assocGet k m := by
  induction l with
  | nil => simp
  | cons p rest ih =>
    obtain ⟨a, b⟩ := p
    by_cases hk : a = k
    · rw [assocGet, if_pos hk] at h
      exact absurd h (by simp)
    · rw [assocGet, if_neg hk] at h
      rw [List.cons_append, assocGet, if_neg hk]
      exact ih h

theorem assocGet_map_overwrite {α β : Type} [DecidableEq α] (k : α) (v : β) (l : List (α × β))
    (h : (assocGet k l).isSome) :
    assocGet k (l.map (fun kv => if kv.1 = k then (k, v) else kv)) = some v := by
  induction l with
  | nil => simp [assocGet] at h
  | cons p rest ih =>
    obtain ⟨a, b⟩ := p
    by_cases hk : a = k
    · subst hk
      rw [List.map_cons, if_pos (show ((a, b) : α × β).1 = a from rfl), assocGet, if_pos rfl]
    · rw [assocGet, if_neg hk] at h
      simp only [List.map_cons]
      rw [show (if (a, b).1 = k then (k, v) else (a, b)) = (a, b) from by simp [hk]]
      rw [assocGet, if_neg hk]
      exact ih h

theorem assocGet_dictSet_self {α β : Type} [DecidableEq α] (k : α) (v : β) (l : List (α × β)) :
    assocGet k (dictSet k v l) = some v := by
  unfold dictSet
  by_cases h : (assocGet k l).isSome
  · rw [if_pos h]
    exact assocGet_map_overwrite k v l h
  · rw [if_neg h]
    have hn : assocGet k l = none := by
      cases hh : assocGet k l with
      | none => rfl
      | some x => rw [hh] at h; simp at h
    rw [assocGet_append_of_none k l _ hn]
    simp [assocGet]

theorem dictSet_append_of_none {α β : Type} [DecidableEq α] (k : α) (v : β) (l : List (α × β))
    (h : assocGet k l = none) : dictSet k v l = l ++ [(k, v)] := by
  unfold dictSet
  rw [h]
  simp

theorem assocGet_none_of_keys_lt (L : List (Nat × Document)) (n : Nat)
    (h : ∀ p ∈ L, p.1 < n) : assocGet n L = none := by
  induction L with
  | nil => rfl
  | cons p rest ih =>
    obtain ⟨a, b⟩ := p
    have ha : a < n := by simpa using h (a, b) (by simp)
    rw [assocGet, if_neg (by omega)]
    exact ih (fun q hq => h q (by simp [hq]))

theorem addDocs_eq (ds : List Document) (a : StandardAnalyzer) (st : IndexStorage) :
    ∀ (L : List (Nat × Document)), (∀ p ∈ L, p.1 < L.length) →
    addDocs ⟨a, st, L⟩ ds = (entriesFrom L.length ds, ⟨a, st, L ++ entriesFrom L.length ds⟩) := by
  induction ds with
  | nil => intro L _; simp [addDocs, entriesFrom]
  | cons d ds ih =>
    intro L hL
    have hnone : assocGet L.length L = none := assocGet_none_of_keys_lt L L.length hL
    have hset := dictSet_append_of_none L.length ({ d with id := some L.length } : Document) L hnone
    have hL2 : ∀ p ∈ L ++ [(L.length, ({ d with id := some L.length } : Document))],
        p.1 < (L ++ [(L.length, ({ d with id := some L.length } : Document))]).length := by
      intro p hp
      simp only [List.mem_append, List.mem_singleton] at hp
      simp only [List.length_append, List.length_singleton]
      rcases hp with hp | hp
      · have := hL p hp; omega
      · subst hp; simp
    have hrec := ih (L ++ [(L.length, ({ d with id := some L.length } : Document))]) hL2
    simp only [List.length_append, List.length_singleton] at hrec
    simp only [addDocs, Index.add_document, hset, hrec, entriesFrom]
    simp [List.append_assoc]

theorem entriesFrom_map_fst (ds : List Document) :
    ∀ n, (entriesFrom n ds).map Prod.fst = List.range' n ds.length := by
  induction ds with
  | nil => intro n; simp [entriesFrom]
  | cons d ds ih => intro n; simp [entriesFrom, List.range', ih]

theorem assocGet_entriesFrom (ds : List Document) :
    ∀ (n i : Nat) (h : i < ds.length),
    assocGet (n + i) (entriesFrom n ds) = some { ds.get ⟨i, h⟩ with id := some (n + i) } := by
  induction ds with
  | nil => intro n i h; simp at h
  | cons d ds ih =>
    intro n i h
    cases i with
    | zero => simp [entriesFrom, assocGet]
    | succ i =>
      rw [entriesFrom, assocGet, if_neg (by omega)]
      have hi : i < ds.length := by simpa using Nat.lt_of_succ_lt_succ h
      have := ih (n + 1) i hi
      rw [show n + (i + 1) = (n + 1) + i by omega]
      rw [this]
      rfl

/-- C1: on a freshly constructed (empty) store, a sequence of add calls
returns the ids 0, 1, ..., n-1 in call order, each add sets the passed
document id field in place to the returned id (the middle components of
the returned pairs), and get(i) returns the document passed at call i
(with its id set to i). -/
theorem c1_add_assigns_sequential_ids (a : StandardAnalyzer) (s : IndexStorage)
    (hs : s.data = []) (ds : List Document) :
    ((addDocs (Index.init a s) ds).1.map Prod.fst = List.range ds.length) ∧
    ((addDocs (Index.init a s) ds).1 = entriesFrom 0 ds) ∧
    (∀ i (h : i < ds.length),
      (addDocs (Index.init a s) ds).2.get_document i =
        Except.ok { ds.get ⟨i, h⟩ with id := some i }) := by
  have h0 : Index.init a s = ⟨a, s, []⟩ := by
    simp [Index.init, IndexStorage.load_data, hs]
  have hmain := addDocs_eq ds a s [] (by simp)
  simp only [List.length_nil, List.nil_append] at hmain
  rw [h0, hmain]
  refine ⟨?_, rfl, ?_⟩
  · rw [entriesFrom_map_fst, List.range_eq_range']
  · intro i h
    unfold Index.get_document
    have := assocGet_entriesFrom ds 0 i h
    rw [Nat.zero_add] at this
    simp only
    rw [this]

/-- Witness for C1: the two-document scenario, with hypotheses
discharged concretely. -/
theorem c1_add_assigns_sequential_ids_witness :
    demoStorage.data = [] ∧ (0 : Nat) < demoDocs.length ∧
    ((addDocs (Index.init StandardAnalyzer.mk demoStorage) demoDocs).1.map Prod.fst =
      List.range demoDocs.length) ∧
    ((addDocs (Index.init StandardAnalyzer.mk demoStorage) demoDocs).2.get_document 0 =
      Except.ok (Document.mk [("title", "A")] (some 0))) := by
  have h := c1_add_assigns_sequential_ids StandardAnalyzer.mk demoStorage rfl demoDocs
  refine ⟨rfl, by decide, h.1, ?_⟩
  have h2 := h.2.2 0 (by decide)
  simpa [demoDocs, demoDocA] using h2

/-- C5: on every store whose document keys are the canonical sequence
0..n-1 produced by sequential adds, the local fallback search returns
exactly one (id, score) pair per stored document, score fixed at 1.0, in
ascending id order, independently of the query dict. -/
theorem c5_search_fallback_all_ids (idx : Index) (q : List (String × Json))
    (hk : idx._documents.map Prod.fst = List.range idx._documents.length) :
    idx.search q = (List.range idx._documents.length).map (fun i => (i, (1 : ℚ))) := by
  show idx._documents.map (fun kv => (kv.1, (1 : ℚ))) = _
  rw [show (fun kv : Nat × Document => (kv.1, (1 : ℚ))) =
        ((fun i => (i, (1 : ℚ))) ∘ Prod.fst) from rfl,
      ← List.map_map, hk]

/-- Witness for C5: after adding the title-A and title-B documents to a
fresh store, searching any query returns exactly the two pairs with
score 1. -/
theorem c5_search_fallback_all_ids_witness :
    (demoIndex._documents.map Prod.fst = List.range demoIndex._documents.length) ∧
    demoIndex.search demoQueryDict = [(0, (1 : ℚ)), (1, (1 : ℚ))] := by
  have hk : demoIndex._documents.map Prod.fst = List.range demoIndex._documents.length := by
    decide
  refine ⟨hk, ?_⟩
  rw [c5_search_fallback_all_ids demoIndex demoQueryDict hk]
  decide

/-- C6: get on an id absent from the documents dict raises the not-found
KeyError (the local NotFoundError of the spec taxonomy), and leaves the
store unchanged, in particular the next id to assign. -/
theorem c6_get_absent_raises (idx : Index) (doc_id : Nat)
    (h : assocGet doc_id idx._documents = none) :
    idx.get_document_st doc_id =
      (Except.error (PyExc.KeyError s!"Document {doc_id} not found"), idx) ∧
    (idx.get_document_st doc_id).2.next_doc_id = idx.next_doc_id := by
  refine ⟨?_, rfl⟩
  unfold Index.get_document_st Index.get_document
  rw [h]

/-- Witness for C6: id 5 is absent from the two-document store. -/
theorem c6_get_absent_raises_witness :
    assocGet 5 demoIndex._documents = none ∧
    demoIndex.get_document_st 5 =
      (Except.error (PyExc.KeyError "Document 5 not found"), demoIndex) := by
  have h : assocGet 5 demoIndex._documents = none := by decide
  have h2 := (c6_get_absent_raises demoIndex 5 h).1
  exact ⟨h, h2⟩

/-- C2: saving a store and constructing a new store against the same
location yields a getAll equal, document by document (field mapping and
assigned id alike), to the original store's getAll at the time of the
save. -/
theorem c2_save_load_roundtrip (cwd : String) (idx : Index) (fs fs2 : FS)
    (hv : validate_path cwd idx.storage.index_path = Except.ok ())
    (hsave : idx.save fs = Except.ok fs2) :
    ∃ s2, IndexStorage.init cwd idx.storage.index_path fs2 = Except.ok s2 ∧
      ∀ a, (Index.init a s2).get_all_documents = idx.get_all_documents := by
  unfold Index.save IndexStorage.save_data at hsave
  by_cases hro : fs.readonly.contains idx.storage.index_path
  · rw [if_pos hro] at hsave
    exact absurd hsave (by simp)
  · rw [if_neg hro] at hsave
    injection hsave with hfs2
    subst hfs2
    refine ⟨⟨idx.storage.index_path, idx._documents⟩, ?_, fun a => rfl⟩
    unfold IndexStorage.init
    rw [hv]
    have hl : IndexStorage._load_data idx.storage.index_path
        ⟨dictSet idx.storage.index_path (Blob.pickled idx._documents) fs.files, fs.readonly⟩ =
        idx._documents := by
      unfold IndexStorage._load_data
      rw [show (FS.mk (dictSet idx.storage.index_path (Blob.pickled idx._documents) fs.files)
            fs.readonly).files =
          dictSet idx.storage.index_path (Blob.pickled idx._documents) fs.files from rfl]
      rw [assocGet_dictSet_self]
    rw [hl]

/-- Witness for C2 on the two-document store and the empty file
system. -/
theorem c2_save_load_roundtrip_witness :
    validate_path "/home/user" demoIndex.storage.index_path = Except.ok () ∧
    demoIndex.save demoFS = Except.ok demoFS2 ∧
    (∃ s2, IndexStorage.init "/home/user" demoIndex.storage.index_path demoFS2 = Except.ok s2 ∧
      ∀ a, (Index.init a s2).get_all_documents = demoIndex.get_all_documents) := by
  have hv : validate_path "/home/user" demoIndex.storage.index_path = Except.ok () := rfl
  have hsave : demoIndex.save demoFS = Except.ok demoFS2 := rfl
  exact ⟨hv, hsave, c2_save_load_roundtrip "/home/user" demoIndex demoFS demoFS2 hv hsave⟩

/-- C4: constructing a store against a location whose contents fail to
unpickle raises nothing and yields an empty store. -/
theorem c4_corrupt_load_yields_empty (cwd path : String) (fs : FS)
    (hv : validate_path cwd path = Except.ok ())
    (hc : assocGet path fs.files = some Blob.corrupt) :
    IndexStorage.init cwd path fs = Except.ok ⟨path, []⟩ ∧
    ∀ a, (Index.init a ⟨path, []⟩).get_all_documents = [] := by
  refine ⟨?_, fun a => rfl⟩
  unfold IndexStorage.init
  rw [hv]
  have hl : IndexStorage._load_data path fs = [] := by
    unfold IndexStorage._load_data
    rw [hc]
  rw [hl]

/-- Witness for C4 on a corrupted default index file. -/
theorem c4_corrupt_load_yields_empty_witness :
    validate_path "/home/user" "index.gob" = Except.ok () ∧
    assocGet "index.gob" demoCorruptFS.files = some Blob.corrupt ∧
    IndexStorage.init "/home/user" "index.gob" demoCorruptFS = Except.ok ⟨"index.gob", []⟩ := by
  have hv : validate_path "/home/user" "index.gob" = Except.ok () := rfl
  have hc : assocGet "index.gob" demoCorruptFS.files = some Blob.corrupt := rfl
  exact ⟨hv, hc, (c4_corrupt_load_yields_empty "/home/user" "index.gob" demoCorruptFS hv hc).1⟩

/-- C9: when the location cannot be written, save fails with the write
error (the OSError the open call raises, the PersistenceError of the
spec taxonomy) and the failure is surfaced to the caller unchanged;
and load never propagates a failure, so a failed save is the only
persistence failure that propagates. -/
theorem c9_failed_save_propagates :
    (∀ (s : IndexStorage) (data : List (Nat × Document)) (fs : FS),
      fs.readonly.contains s.index_path = true →
      s.save_data data fs = Except.error (PyExc.OSError s.index_path)) ∧
    (∀ (cwd path : String) (fs : FS), validate_path cwd path = Except.ok () →
      ∃ s2, IndexStorage.init cwd path fs = Except.ok s2) := by
  refine ⟨?_, ?_⟩
  · intro s data fs h
    unfold IndexStorage.save_data
    rw [if_pos h]
  · intro cwd path fs hv
    refine ⟨⟨path, IndexStorage._load_data path fs⟩, ?_⟩
    unfold IndexStorage.init
    rw [hv]

/-- Witness for C9 on a read-only location. -/
theorem c9_failed_save_propagates_witness :
    demoROFS.readonly.contains demoStorage.index_path = true ∧
    demoStorage.save_data demoIndex._documents demoROFS =
      Except.error (PyExc.OSError "index.gob") := by
  have h : demoROFS.readonly.contains demoStorage.index_path = true := rfl
  exact ⟨h, c9_failed_save_propagates.1 demoStorage demoIndex._documents demoROFS h⟩

/-- C10: save_data leaves the backend's cached dict untouched, so
load_data keeps returning the construction-time mapping; the newly saved
mapping becomes observable by constructing a new backend against the
same location. -/
theorem c10_save_does_not_refresh_load (s : IndexStorage) (data : List (Nat × Document))
    (fs : FS) :
    ((s.save_data_st data fs).2.load_data = s.load_data) ∧
    (∀ (cwd : String) (fs2 : FS), (s.save_data_st data fs).1 = Except.ok fs2 →
      validate_path cwd s.index_path = Except.ok () →
      IndexStorage.init cwd s.index_path fs2 = Except.ok ⟨s.index_path, data⟩) := by
  refine ⟨rfl, ?_⟩
  intro cwd fs2 hsave hv
  unfold IndexStorage.save_data_st IndexStorage.save_data at hsave
  simp only at hsave
  by_cases hro : fs.readonly.contains s.index_path
  · rw [if_pos hro] at hsave
    exact absurd hsave (by simp)
  · rw [if_neg hro] at hsave
    injection hsave with hfs2
    subst hfs2
    unfold IndexStorage.init
    rw [hv]
    have hl : IndexStorage._load_data s.index_path
        ⟨dictSet s.index_path (Blob.pickled data) fs.files, fs.readonly⟩ = data := by
      unfold IndexStorage._load_data
      rw [show (FS.mk (dictSet s.index_path (Blob.pickled data) fs.files) fs.readonly).files =
          dictSet s.index_path (Blob.pickled data) fs.files from rfl]
      rw [assocGet_dictSet_self]
    rw [hl]

/-- Witness for C10 on the two-document mapping. -/
theorem c10_save_does_not_refresh_load_witness :
    ((demoStorage.save_data_st demoIndex._documents demoFS).2.load_data =
      demoStorage.load_data) ∧
    ((demoStorage.save_data_st demoIndex._documents demoFS).1 = Except.ok demoFS2) ∧
    (validate_path "/home/user" demoStorage.index_path = Except.ok ()) ∧
    IndexStorage.init "/home/user" demoStorage.index_path demoFS2 =
      Except.ok ⟨demoStorage.index_path, demoIndex._documents⟩ := by
  have hsave : (demoStorage.save_data_st demoIndex._documents demoFS).1 = Except.ok demoFS2 :=
    rfl
  have hv : validate_path "/home/user" demoStorage.index_path = Except.ok () := rfl
  refine ⟨(c10_save_does_not_refresh_load demoStorage demoIndex._documents demoFS).1,
    hsave, hv, ?_⟩
  exact (c10_save_does_not_refresh_load demoStorage demoIndex._documents demoFS).2
    "/home/user" demoFS2 hsave hv

/-- C7 (amended): index_document fails with the connection error on
transport failure; fails with the generic IndexerError on every 4xx or
5xx response other than 404; and never raises for a 2xx response whose
body parses as JSON, however empty the payload.  Statuses outside
400..599 are not treated as errors by raise_for_status. -/
theorem c7_index_document_errors (c : IndexerClient) (t : Transport) (d : Document) :
    (∀ msg,
      t ⟨"POST", c.base_url ++ "/_doc", some d.model_dump⟩ = HttpOutcome.connectionFailure msg →
      c.index_document t d =
        Except.error (PyExc.IndexerConnectionError ("Failed to connect to indexer: " ++ msg))) ∧
    (∀ status errMsg body,
      t ⟨"POST", c.base_url ++ "/_doc", some d.model_dump⟩ =
        HttpOutcome.response status errMsg body →
      400 ≤ status → status < 600 → status ≠ 404 →
      c.index_document t d =
        Except.error (PyExc.IndexerError ("Request failed: " ++ errMsg))) ∧
    (∀ status errMsg j,
      t ⟨"POST", c.base_url ++ "/_doc", some d.model_dump⟩ =
        HttpOutcome.response status errMsg (Except.ok j) →
      200 ≤ status → status < 300 →
      c.index_document t d = Except.ok j) := by
  refine ⟨?_, ?_, ?_⟩
  · intro msg ht
    simp only [IndexerClient.index_document, IndexerClient.make_request]
    rw [ht]
  · intro status errMsg body ht h4 h6 hn
    simp only [IndexerClient.index_document, IndexerClient.make_request]
    rw [ht]
    dsimp only
    rw [if_pos ⟨h4, h6⟩, if_neg hn]
  · intro status errMsg j ht h2 h3
    simp only [IndexerClient.index_document, IndexerClient.make_request]
    rw [ht]
    dsimp only
    rw [if_neg (by omega : ¬ (400 ≤ status ∧ status < 600))]

/-- Counterexample to C7 as stated: a 300 response (non-2xx and not 404)
with a JSON body makes index_document return the body instead of failing
with the generic error. -/
theorem c7_index_document_errors_counterexample :
    (¬ (200 ≤ 300 ∧ 300 < 300)) ∧ ((300 : Nat) ≠ 404) ∧
    demoClient.index_document t300 demoDocA = Except.ok (Json.obj []) := by
  exact ⟨by omega, by omega, rfl⟩

/-- Witness for the amended C7 at a concrete 500 response. -/
theorem c7_index_document_errors_witness :
    (t500 { method := "POST", url := demoClient.base_url ++ "/_doc",
            json := some demoDocA.model_dump } =
      HttpOutcome.response 500
        "500 Server Error: Internal Server Error for url: http://localhost:8080/_doc"
        (Except.error "Expecting value: line 1 column 1 (char 0)")) ∧
    (400 ≤ 500) ∧ (500 < 600) ∧ ((500 : Nat) ≠ 404) ∧
    demoClient.index_document t500 demoDocA =
      Except.error (PyExc.IndexerError
        ("Request failed: " ++
          "500 Server Error: Internal Server Error for url: http://localhost:8080/_doc")) := by
  refine ⟨rfl, by omega, by omega, by omega, ?_⟩
  exact (c7_index_document_errors demoClient t500 demoDocA).2.1 500
    "500 Server Error: Internal Server Error for url: http://localhost:8080/_doc"
    (Except.error "Expecting value: line 1 column 1 (char 0)")
    rfl (by omega) (by omega) (by omega)

/-- C8 (amended): on a 4xx or 5xx search response, the raised failure is
reclassified to InvalidQueryError exactly when the failure message (the
404 not-found message, or the generic request-failed message otherwise)
contains the invalid-query marker case-insensitively; without the marker
404 raises the not-found error and any other 4xx or 5xx raises the
generic error unchanged. -/
theorem c8_search_reclassifies (c : IndexerClient) (t : Transport) (query : Json)
    (status : Nat) (errMsg : String) (body : Except String Json)
    (ht : t ⟨"POST", c.base_url ++ "/_search", some query⟩ =
      HttpOutcome.response status errMsg body)
    (h4 : 400 ≤ status) (h6 : status < 600) :
    c.search t query =
      (if status = 404 then
        (if strContains (strLower ("Document not found: " ++ errMsg)) "invalid query" then
          Except.error (PyExc.InvalidQueryError
            ("Invalid query: " ++ ("Document not found: " ++ errMsg)))
        else Except.error (PyExc.DocumentNotFoundError ("Document not found: " ++ errMsg)))
      else
        (if strContains (strLower ("Request failed: " ++ errMsg)) "invalid query" then
          Except.error (PyExc.InvalidQueryError
            ("Invalid query: " ++ ("Request failed: " ++ errMsg)))
        else Except.error (PyExc.IndexerError ("Request failed: " ++ errMsg)))) := by
  simp only [IndexerClient.search, IndexerClient.make_request]
  rw [ht]
  dsimp only
  rw [if_pos ⟨h4, h6⟩]
  by_cases h404 : status = 404
  · rw [if_pos h404, if_pos h404]
    dsimp only [isIndexerError, excStr]
    simp only [Bool.true_and]
  · rw [if_neg h404, if_neg h404]
    dsimp only [isIndexerError, excStr]
    simp only [Bool.true_and]

/-- Counterexample to C8 as stated: a 404 search failure without the
marker raises the not-found error, not the generic error the claim
requires for every markerless non-2xx failure. -/
theorem c8_search_reclassifies_counterexample :
    demoClient.search t404 demoBadQuery =
      Except.error (PyExc.DocumentNotFoundError
        "Document not found: 404 Client Error: Not Found for url: http://localhost:8080/_search") ∧
    (Except.error (PyExc.DocumentNotFoundError
        "Document not found: 404 Client Error: Not Found for url: http://localhost:8080/_search") ≠
      (Except.error (PyExc.IndexerError
        "Request failed: 404 Client Error: Not Found for url: http://localhost:8080/_search") :
        Except PyExc SearchResponse)) := by
  refine ⟨rfl, by simp⟩

/-- Witness for the amended C8 at a concrete 400 response carrying the
marker: the failure is reclassified to InvalidQueryError. -/
theorem c8_search_reclassifies_witness :
    (t400iq { method := "POST", url := demoClient.base_url ++ "/_search",
              json := some demoBadQuery } =
      HttpOutcome.response 400
        "400 Client Error: Invalid Query for url: http://localhost:8080/_search"
        (Except.error "Expecting value: line 1 column 1 (char 0)")) ∧
    (400 ≤ 400) ∧ (400 < 600) ∧
    demoClient.search t400iq demoBadQuery =
      Except.error (PyExc.InvalidQueryError
        "Invalid query: Request failed: 400 Client Error: Invalid Query for url: http://localhost:8080/_search") := by
  refine ⟨rfl, by omega, by omega, ?_⟩
  have h := c8_search_reclassifies demoClient t400iq demoBadQuery 400
    "400 Client Error: Invalid Query for url: http://localhost:8080/_search"
    (Except.error "Expecting value: line 1 column 1 (char 0)") rfl (by omega) (by omega)
  rw [h]
  rfl

theorem splitOnSlash_ne_nil (cs : List Char) : splitOnSlash cs ≠ [] := by
  cases cs with
  | nil => simp [splitOnSlash]
  | cons c rest =>
    rw [splitOnSlash]
    cases h : splitOnSlash rest with
    | nil => simp
    | cons g gs => by_cases hc : c = '/' <;> simp [hc]

theorem splitOnSlash_no_slash (cs : List Char) : ∀ x ∈ splitOnSlash cs, '/' ∉ x := by
  induction cs with
  | nil =>
    intro x hx
    simp [splitOnSlash] at hx
    subst hx
    simp
  | cons c rest ih =>
    intro x hx
    rw [splitOnSlash] at hx
    cases h : splitOnSlash rest with
    | nil => exact absurd h (splitOnSlash_ne_nil rest)
    | cons g gs =>
      rw [h] at hx
      rw [h] at ih
      dsimp only at hx
      by_cases hc : c = '/'
      · rw [if_pos hc] at hx
        rcases List.mem_cons.mp hx with hx | hx
        · subst hx; simp
        · exact ih x hx
      · rw [if_neg hc] at hx
        rcases List.mem_cons.mp hx with hx | hx
        · subst hx
          intro hmem
          rcases List.mem_cons.mp hmem with he | he
          · exact hc he.symm
          · exact ih g (by simp) he
        · exact ih x (by simp [hx])

theorem splitOnSlash_of_no_slash (cs : List Char) (h : '/' ∉ cs) : splitOnSlash cs = [cs] := by
  induction cs with
  | nil => rfl
  | cons c rest ih =>
    have hc : ¬ (c = '/') := fun e => by subst e; exact h (by simp)
    have hrest : '/' ∉ rest := fun hr => h (by simp [hr])
    rw [splitOnSlash, ih hrest]
    simp [hc]

theorem splitOnSlash_append_slash (x t : List Char) (h : '/' ∉ x) :
    splitOnSlash (x ++ '/' :: t) = x :: splitOnSlash t := by
  induction x with
  | nil =>
    simp only [List.nil_append]
    rw [splitOnSlash]
    cases ht : splitOnSlash t with
    | nil => exact absurd ht (splitOnSlash_ne_nil t)
    | cons g gs => simp
  | cons c x2 ih =>
    have hc : ¬ (c = '/') := fun e => by subst e; exact h (by simp)
    have hx2 : '/' ∉ x2 := fun hr => h (by simp [hr])
    rw [List.cons_append, splitOnSlash, ih hx2]
    simp [hc]

theorem splitOnSlash_joinSlash (rs : List (List Char)) (hne : rs ≠ [])
    (h : ∀ x ∈ rs, x ≠ [] ∧ '/' ∉ x) : splitOnSlash (joinSlash rs) = rs := by
  induction rs with
  | nil => exact absurd rfl hne
  | cons x rs2 ih =>
    cases rs2 with
    | nil =>
      rw [joinSlash]
      exact splitOnSlash_of_no_slash x (h x (by simp)).2
    | cons y rs3 =>
      rw [joinSlash, splitOnSlash_append_slash x _ (h x (by simp)).2,
        ih (by simp) (fun z hz => h z (by simp [hz]))]

theorem joinSlash_head (rs : List (List Char)) (hne : rs ≠ [])
    (h : ∀ x ∈ rs, x ≠ [] ∧ '/' ∉ x) : ∃ c t, joinSlash rs = c :: t ∧ c ≠ '/' := by
  cases rs with
  | nil => exact absurd rfl hne
  | cons x rs2 =>
    obtain ⟨hxne, hxs⟩ := h x (by simp)
    cases x with
    | nil => exact absurd rfl hxne
    | cons c x2 =>
      have hc : c ≠ '/' := fun e => by subst e; exact hxs (by simp)
      cases rs2 with
      | nil => exact ⟨c, x2, by rw [joinSlash], hc⟩
      | cons y rs3 =>
        refine ⟨c, x2 ++ '/' :: joinSlash (y :: rs3), ?_, hc⟩
        rw [joinSlash, List.cons_append]

theorem normComps_cons (flag : Bool) (acc : List (List Char)) (c : List Char)
    (rest : List (List Char)) :
    normComps flag acc (c :: rest) =
      if c = [] ∨ c = ['.'] then normComps flag acc rest
      else if c ≠ ['.', '.'] ∨ (flag = false ∧ acc = []) ∨ acc.head? = some ['.', '.'] then
        normComps flag (c :: acc) rest
      else
        match acc with
        | [] => normComps flag [] rest
        | _ :: acc2 => normComps flag acc2 rest := rfl

theorem normComps_mem (flag : Bool) (l : List (List Char)) :
    ∀ (acc : List (List Char)) (x : List Char), x ∈ normComps flag acc l → x ∈ acc ∨ x ∈ l := by
  induction l with
  | nil =>
    intro acc x hx
    rw [normComps] at hx
    exact Or.inl (List.mem_reverse.mp hx)
  | cons c rest ih =>
    intro acc x hx
    rw [normComps_cons] at hx
    by_cases h1 : c = [] ∨ c = ['.']
    · rw [if_pos h1] at hx
      rcases ih acc x hx with h | h
      · exact Or.inl h
      · exact Or.inr (by simp [h])
    · rw [if_neg h1] at hx
      by_cases h2 : c ≠ ['.', '.'] ∨ (flag = false ∧ acc = []) ∨ acc.head? = some ['.', '.']
      · rw [if_pos h2] at hx
        rcases ih (c :: acc) x hx with h | h
        · rcases List.mem_cons.mp h with h | h
          · exact Or.inr (by simp [h])
          · exact Or.inl h
        · exact Or.inr (by simp [h])
      · rw [if_neg h2] at hx
        cases acc with
        | nil =>
          dsimp only at hx
          rcases ih [] x hx with h | h
          · exact absurd h (by simp)
          · exact Or.inr (by simp [h])
        | cons a acc2 =>
          dsimp only at hx
          rcases ih acc2 x hx with h | h
          · exact Or.inl (by simp [h])
          · exact Or.inr (by simp [h])

theorem normComps_good (flag : Bool) (l : List (List Char)) :
    ∀ acc, (∀ x ∈ acc, ¬ (x = [] ∨ x = ['.'])) →
      ∀ x ∈ normComps flag acc l, ¬ (x = [] ∨ x = ['.']) := by
  induction l with
  | nil =>
    intro acc hacc x hx
    rw [normComps] at hx
    exact hacc x (List.mem_reverse.mp hx)
  | cons c rest ih =>
    intro acc hacc x hx
    rw [normComps_cons] at hx
    by_cases h1 : c = [] ∨ c = ['.']
    · rw [if_pos h1] at hx
      exact ih acc hacc x hx
    · rw [if_neg h1] at hx
      by_cases h2 : c ≠ ['.', '.'] ∨ (flag = false ∧ acc = []) ∨ acc.head? = some ['.', '.']
      · rw [if_pos h2] at hx
        refine ih (c :: acc) ?_ x hx
        intro y hy
        rcases List.mem_cons.mp hy with hy | hy
        · subst hy; exact h1
        · exact hacc y hy
      · rw [if_neg h2] at hx
        cases acc with
        | nil =>
          dsimp only at hx
          exact ih [] (by simp) x hx
        | cons a acc2 =>
          dsimp only at hx
          exact ih acc2 (fun y hy => hacc y (by simp [hy])) x hx

theorem normComps_shape (flag : Bool) (l : List (List Char)) :
    ∀ (acc f d : List (List Char)), acc = f ++ d →
      (∀ x ∈ f, x ≠ ['.', '.']) → (∀ x ∈ d, x = ['.', '.']) → (flag = true → d = []) →
      ∃ ds rest, normComps flag acc l = ds ++ rest ∧ (∀ x ∈ ds, x = ['.', '.']) ∧
        (∀ x ∈ rest, x ≠ ['.', '.']) ∧ (flag = true → ds = []) := by
  induction l with
  | nil =>
    intro acc f d hacc hf hd hflag
    refine ⟨d.reverse, f.reverse, ?_, ?_, ?_, ?_⟩
    · rw [normComps, hacc, List.reverse_append]
    · intro x hx; exact hd x (List.mem_reverse.mp hx)
    · intro x hx; exact hf x (List.mem_reverse.mp hx)
    · intro hfl; rw [hflag hfl]; rfl
  | cons c rest ih =>
    intro acc f d hacc hf hd hflag
    rw [normComps_cons]
    by_cases h1 : c = [] ∨ c = ['.']
    · rw [if_pos h1]
      exact ih acc f d hacc hf hd hflag
    · rw [if_neg h1]
      by_cases h2 : c ≠ ['.', '.'] ∨ (flag = false ∧ acc = []) ∨ acc.head? = some ['.', '.']
      · rw [if_pos h2]
        by_cases hcdd : c = ['.', '.']
        · subst hcdd
          have hfnil : f = [] := by
            rcases h2 with h2 | h2 | h2
            · exact absurd rfl h2
            · exact (List.append_eq_nil.mp (hacc.symm.trans h2.2)).1
            · cases f with
              | nil => rfl
              | cons a f2 =>
                rw [hacc] at h2
                simp only [List.cons_append, List.head?_cons, Option.some.injEq] at h2
                exact absurd h2 (hf a (by simp))
          subst hfnil
          simp only [List.nil_append] at hacc
          refine ih (['.', '.'] :: acc) [] (['.', '.'] :: d) (by rw [hacc]; rfl) (by simp) ?_ ?_
          · intro x hx
            rcases List.mem_cons.mp hx with hx | hx
            · exact hx
            · exact hd x hx
          · intro hfl
            exfalso
            rcases h2 with h2 | h2 | h2
            · exact h2 rfl
            · rw [hfl] at h2
              exact absurd h2.1 (by decide)
            · rw [hacc, hflag hfl] at h2
              simp at h2
        · refine ih (c :: acc) (c :: f) d (by rw [hacc]; rfl) ?_ hd hflag
          intro x hx
          rcases List.mem_cons.mp hx with hx | hx
          · subst hx; exact hcdd
          · exact hf x hx
      · rw [if_neg h2]
        push_neg at h2
        obtain ⟨hcdd, hfa, hhead⟩ := h2
        cases hacccase : acc with
        | nil =>
          dsimp only
          exact ih [] [] [] rfl (by simp) (by simp) (fun _ => rfl)
        | cons a acc2 =>
          dsimp only
          rw [hacccase] at hhead
          have hadd : a ≠ ['.', '.'] := fun e => hhead (by simp [e])
          cases f with
          | nil =>
            rw [hacccase] at hacc
            simp only [List.nil_append] at hacc
            exact absurd (hd a (by rw [← hacc]; simp)) hadd
          | cons b f2 =>
            rw [hacccase] at hacc
            rw [List.cons_append] at hacc
            injection hacc with hab hacc2
            exact ih acc2 f2 d hacc2 (fun y hy => hf y (by simp [hy])) hd hflag

theorem normComps_stable_tail (f : List (List Char))
    (hf : ∀ x ∈ f, ¬ (x = [] ∨ x = ['.']) ∧ x ≠ ['.', '.']) :
    ∀ (flag : Bool) (acc : List (List Char)), normComps flag acc f = acc.reverse ++ f := by
  induction f with
  | nil =>
    intro flag acc
    rw [normComps]
    simp
  | cons c f2 ih =>
    intro flag acc
    obtain ⟨hgood, hdd⟩ := hf c (by simp)
    rw [normComps_cons, if_neg hgood, if_pos (Or.inl hdd)]
    rw [ih (fun y hy => hf y (by simp [hy])) flag (c :: acc)]
    simp

theorem normComps_stable_dds (ds : List (List Char)) (hds : ∀ x ∈ ds, x = ['.', '.']) :
    ∀ (acc rest : List (List Char)), (∀ x ∈ acc, x = ['.', '.']) →
      normComps false acc (ds ++ rest) = normComps false (ds.reverse ++ acc) rest := by
  induction ds with
  | nil =>
    intro acc rest _
    simp
  | cons c ds2 ih =>
    intro acc rest hacc
    have hc : c = ['.', '.'] := hds c (by simp)
    subst hc
    have hcond : (['.', '.'] : List Char) ≠ ['.', '.'] ∨ (false = false ∧ acc = []) ∨
        acc.head? = some ['.', '.'] := by
      cases acc with
      | nil => exact Or.inr (Or.inl ⟨rfl, rfl⟩)
      | cons a acc2 => exact Or.inr (Or.inr (by simp [hacc a (by simp)]))
    rw [List.cons_append, normComps_cons, if_neg (by decide), if_pos hcond]
    rw [ih (fun y hy => hds y (by simp [hy])) (['.', '.'] :: acc) rest ?_]
    · simp
    · intro y hy
      rcases List.mem_cons.mp hy with hy | hy
      · exact hy
      · exact hacc y hy

theorem normComps_stable (flag : Bool) (ds rest : List (List Char))
    (hds : ∀ x ∈ ds, x = ['.', '.'])
    (hrest : ∀ x ∈ rest, ¬ (x = [] ∨ x = ['.']) ∧ x ≠ ['.', '.'])
    (hflag : flag = true → ds = []) :
    normComps flag [] (ds ++ rest) = ds ++ rest := by
  cases flag with
  | true =>
    rw [hflag rfl]
    simp only [List.nil_append]
    rw [normComps_stable_tail rest hrest true []]
    simp
  | false =>
    rw [normComps_stable_dds ds hds [] rest (by simp)]
    rw [normComps_stable_tail rest hrest false (ds.reverse ++ [])]
    simp

theorem splitOnSlash_slash_cons (cs : List Char) :
    splitOnSlash ('/' :: cs) = [] :: splitOnSlash cs := by
  rw [splitOnSlash]
  cases h : splitOnSlash cs with
  | nil => exact absurd h (splitOnSlash_ne_nil cs)
  | cons g gs => simp

theorem normpath_mk (sl : Nat) (res : List (List Char))
    (hsl : sl ≤ 2)
    (hgood : ∀ x ∈ res, ¬ (x = [] ∨ x = ['.']) ∧ '/' ∉ x)
    (hshape : ∃ ds rest, res = ds ++ rest ∧ (∀ x ∈ ds, x = ['.', '.']) ∧
      (∀ x ∈ rest, x ≠ ['.', '.']) ∧ ((sl != 0) = true → ds = []))
    (hne : ¬ (sl = 0 ∧ res = [])) :
    normpath (String.mk (List.replicate sl '/' ++ joinSlash res)) =
      String.mk (List.replicate sl '/' ++ joinSlash res) := by
  have hgood2 : ∀ x ∈ res, x ≠ [] ∧ '/' ∉ x := fun x hx =>
    ⟨fun e => (hgood x hx).1 (Or.inl e), (hgood x hx).2⟩
  have hstable : normComps (sl != 0) [] res = res := by
    obtain ⟨ds, rest, h1, h2, h3, h4⟩ := hshape
    have h5 : ∀ x ∈ rest, ¬ (x = [] ∨ x = ['.']) ∧ x ≠ ['.', '.'] := by
      intro x hx
      exact ⟨(hgood x (by rw [h1]; exact List.mem_append_right ds hx)).1, h3 x hx⟩
    rw [h1]
    exact normComps_stable (sl != 0) ds rest h2 h5 h4
  interval_cases sl
  · -- no leading slash
    have hrne : res ≠ [] := fun h => hne ⟨rfl, h⟩
    obtain ⟨c, t, hj, hc⟩ := joinSlash_head res hrne hgood2
    have hsplit : splitOnSlash (joinSlash res) = res := splitOnSlash_joinSlash res hrne hgood2
    have hns : ('/' : Char) ≠ c := Ne.symm hc
    rw [hj] at hsplit
    simp only [List.replicate, List.nil_append]
    rw [hj]
    rw [normpath]
    rw [if_neg (by intro h; exact List.cons_ne_nil c t (congrArg String.data h))]
    dsimp only
    have h1p : listIsPfxOf ['/'] (c :: t) = false := by simp [listIsPfxOf, hns]
    have h2p : listIsPfxOf ['/', '/'] (c :: t) = false := by simp [listIsPfxOf, hns]
    rw [hsplit]
    simp only [h1p, h2p, Bool.false_eq_true, false_and, if_false]
    rw [hstable, hj]
    simp [List.replicate]
  · -- one leading slash
    by_cases hrnil : res = []
    · subst hrnil
      decide
    · obtain ⟨c, t, hj, hc⟩ := joinSlash_head res hrnil hgood2
      have hsplit : splitOnSlash (joinSlash res) = res := splitOnSlash_joinSlash res hrnil hgood2
      have hns : ('/' : Char) ≠ c := Ne.symm hc
      rw [hj] at hsplit
      rw [hj]
      simp only [List.replicate, List.cons_append, List.nil_append]
      rw [normpath]
      rw [if_neg (by intro h; exact List.cons_ne_nil _ _ (congrArg String.data h))]
      dsimp only
      have h1p : listIsPfxOf ['/'] ('/' :: c :: t) = true := by simp [listIsPfxOf]
      have h2p : listIsPfxOf ['/', '/'] ('/' :: c :: t) = false := by simp [listIsPfxOf, hns]
      rw [splitOnSlash_slash_cons, hsplit]
      rw [normComps_cons, if_pos (Or.inl rfl)]
      simp only [h1p, h2p, Bool.false_eq_true, false_and, if_false, eq_self_iff_true, if_true]
      rw [hstable, hj]
      simp [List.replicate]
  · -- two leading slashes
    by_cases hrnil : res = []
    · subst hrnil
      decide
    · obtain ⟨c, t, hj, hc⟩ := joinSlash_head res hrnil hgood2
      have hsplit : splitOnSlash (joinSlash res) = res := splitOnSlash_joinSlash res hrnil hgood2
      have hns : ('/' : Char) ≠ c := Ne.symm hc
      rw [hj] at hsplit
      rw [hj]
      simp only [List.replicate, List.cons_append, List.nil_append]
      rw [normpath]
      rw [if_neg (by intro h; exact List.cons_ne_nil _ _ (congrArg String.data h))]
      dsimp only
      have h2p : listIsPfxOf ['/', '/'] ('/' :: '/' :: c :: t) = true := by simp [listIsPfxOf]
      have h3p : listIsPfxOf ['/', '/', '/'] ('/' :: '/' :: c :: t) = false := by
        simp [listIsPfxOf, hns]
      rw [splitOnSlash_slash_cons, splitOnSlash_slash_cons, hsplit]
      rw [normComps_cons, if_pos (Or.inl rfl), normComps_cons, if_pos (Or.inl rfl)]
      simp only [h2p, h3p, Bool.false_eq_true, eq_self_iff_true, not_false_iff, true_and,
        and_true, if_true]
      rw [hstable, hj]
      simp [List.replicate]
theorem normpath_eq_mk (p : String) (hp : p ≠ "") (sl : Nat)
    (hsl : (if listIsPfxOf ['/', '/'] p.data ∧ ¬ listIsPfxOf ['/', '/', '/'] p.data then 2
      else if listIsPfxOf ['/'] p.data then 1 else 0) = sl)
    (res : List (List Char)) (hres : normComps (sl != 0) [] (splitOnSlash p.data) = res) :
    normpath p = if (List.replicate sl '/' ++ joinSlash res).isEmpty then "."
      else String.mk (List.replicate sl '/' ++ joinSlash res) := by
  subst hres
  subst hsl
  rw [normpath, if_neg hp]

theorem normpath_idempotent (p : String) : normpath (normpath p) = normpath p := by
  by_cases hp : p = ""
  · subst hp
    decide
  · have hmk := normpath_eq_mk p hp _ rfl _ rfl
    revert hmk
    generalize hsl : (if listIsPfxOf ['/', '/'] p.data ∧ ¬ listIsPfxOf ['/', '/', '/'] p.data
      then 2 else if listIsPfxOf ['/'] p.data then 1 else 0) = sl
    generalize hres : normComps (sl != 0) [] (splitOnSlash p.data) = res
    intro hmk
    have hsl2 : sl ≤ 2 := by
      rw [← hsl]
      split_ifs <;> omega
    have hgood : ∀ x ∈ res, ¬ (x = [] ∨ x = ['.']) ∧ '/' ∉ x := by
      intro x hx
      rw [← hres] at hx
      refine ⟨normComps_good _ _ [] (by simp) x hx, ?_⟩
      rcases normComps_mem _ _ [] x hx with h | h
      · exact absurd h (by simp)
      · exact splitOnSlash_no_slash p.data x h
    have hshape : ∃ ds rest, res = ds ++ rest ∧ (∀ x ∈ ds, x = ['.', '.']) ∧
        (∀ x ∈ rest, x ≠ ['.', '.']) ∧ ((sl != 0) = true → ds = []) := by
      obtain ⟨ds, rest, h1, h2, h3, h4⟩ := normComps_shape (sl != 0) (splitOnSlash p.data)
        [] [] [] rfl (by simp) (by simp) (fun _ => rfl)
      exact ⟨ds, rest, by rw [← hres, h1], h2, h3, h4⟩
    by_cases hout : (List.replicate sl '/' ++ joinSlash res).isEmpty
    · rw [hmk, if_pos hout]
      decide
    · rw [hmk, if_neg hout]
      have hne : ¬ (sl = 0 ∧ res = []) := by
        rintro ⟨h0, hrnil⟩
        rw [h0, hrnil] at hout
        exact hout (by decide)
      exact normpath_mk sl res hsl2 hgood hshape hne

theorem abspath_normalized (cwd p : String) : normpath (abspath cwd p) = abspath cwd p := by
  unfold abspath
  by_cases h : isAbs p = true
  · rw [if_pos h]
    exact normpath_idempotent p
  · rw [if_neg h]
    exact normpath_idempotent (joinPath cwd p)

/-- C3: the directory-traversal guard can never fire.  The normalised
absolute form always equals the absolute form, for every working
directory and every path, because abspath already returns a normalised
path (normpath is idempotent); and at the concrete failing input, a
location containing a traversal sequence passes validation and
construction succeeds instead of raising the traversal ValueError. -/
theorem c3_traversal_guard_never_fires :
    (∀ cwd path : String, normpath (abspath cwd path) = abspath cwd path) ∧
    validate_path "/home/user" "../evil.gob" = Except.ok () ∧
    IndexStorage.init "/home/user" "../evil.gob" demoFS = Except.ok ⟨"../evil.gob", []⟩ := by
  exact ⟨abspath_normalized, rfl, rfl⟩
